import Mathlib

/-!
Verification of the chunked-audio-analysis windower and trigger evaluator
of `src/main.py` (voice-sense-hardware).

Shallow embedding conventions:
* floating-point times and scores are modelled as rationals (`ℚ`);
* the Hume inference collaborator is an oracle `Nat → Nat → HumeResponse`
  mapping the `(start_ms, end_ms)` range of the audio passed to
  `_analyze_single_audio` to the collaborator's response;
* the filesystem is a duplicate-free list of file names; creating a chunk
  file inserts its name, `unlink` removes it;
* Python dictionaries (`emotion_filters`) are association lists; the float
  truthiness test `if x:` on an `Option ℚ` is `x ≠ none ∧ x ≠ some 0`.
-/

namespace VoiceSense

/-- An `{name, score}` pair as produced by the Hume collaborator and as
stored in the `"emotions"` lists of `src/main.py`. -/
structure EmotionScore where
  name : String
  score : ℚ
deriving DecidableEq

/-- The `"time"` dictionary of a prediction: `{"begin": ..., "end": ...}`,
each field possibly `None` (`_analyze_single_audio`, lines 791-794). -/
structure PTime where
  timeBegin : Option ℚ
  timeEnd : Option ℚ
deriving DecidableEq

/-- One entry of the `predictions` list built by `_analyze_single_audio`
(lines 790-804), possibly later tagged with `chunk_index` by the chunked
path (line 689). -/
structure Prediction where
  time : PTime
  emotions : List EmotionScore
  top_3_emotions : List EmotionScore
  chunk_index : Option Nat
deriving DecidableEq

/-- A raw prosody prediction as received from the Hume collaborator:
a time range and an (unordered) list of emotion scores. -/
structure RawPrediction where
  time : PTime
  emotions : List EmotionScore
deriving DecidableEq

/-- The shapes of collaborator response `_analyze_single_audio` distinguishes:
an object with an `error` attribute (line 751), a result without a usable
`prosody` attribute (line 811), a prosody result carrying an optional
warning and a prediction list (lines 758-767), or a raised exception caught
at line 818. -/
inductive HumeResponse where
  | apiError (msg : String)
  | noProsody
  | prosody (warning : Option String) (preds : List RawPrediction)
  | exn (msg : String)
deriving DecidableEq

/-- The dictionary returned by `_analyze_single_audio` and
`analyze_audio_with_hume`: `success`, `predictions`, and the `error`
string when present. -/
structure AnalysisResult where
  success : Bool
  predictions : List Prediction
  error : Option String
deriving DecidableEq

/-- Descending-by-score comparison used by
`sorted(prediction.emotions, key=lambda e: e.score, reverse=True)`:
`a` may come before `b` iff `b.score ≤ a.score`. -/
def scoreDesc (a b : EmotionScore) : Prop := b.score ≤ a.score

instance : DecidableRel scoreDesc := fun a b => inferInstanceAs (Decidable (b.score ≤ a.score))

instance : IsTotal EmotionScore scoreDesc := ⟨fun a b => le_total b.score a.score⟩

instance : IsTrans EmotionScore scoreDesc := ⟨fun _ _ _ h1 h2 => le_trans h2 h1⟩

/-- Python's `sorted(..., key=lambda e: e.score, reverse=True)`: a stable
sort placing higher scores first (insertion sort is stable, matching
CPython's stable sort semantics). -/
def sortEmotionsDesc (l : List EmotionScore) : List EmotionScore :=
  List.insertionSort scoreDesc l

/-- Lines 782-804 of `_analyze_single_audio`: build one output prediction
from a raw prosody prediction (sort emotions descending, keep the time
range, record the top three emotions; `chunk_index` is absent at this
stage). -/
def mkPrediction (rp : RawPrediction) : Prediction :=
  { time := rp.time,
    emotions := sortEmotionsDesc rp.emotions,
    top_3_emotions := (sortEmotionsDesc rp.emotions).take 3,
    chunk_index := none }

/-- `_analyze_single_audio` (lines 736-826) as a function of the
collaborator's response. -/
def analyze_single_audio (resp : HumeResponse) : AnalysisResult :=
  match resp with
  | .apiError m => { success := false, predictions := [], error := some ("Hume API error: " ++ m) }
  | .exn m => { success := false, predictions := [], error := some m }
  | .noProsody =>
      { success := false, predictions := [],
        error := some "No prosody predictions returned from Hume API" }
  | .prosody warning preds =>
      if preds.isEmpty then
        { success := false, predictions := [],
          error := some (match warning with
            | none => "No speech detected in audio" ++ ""
            | some w => "No speech detected in audio" ++ (" (Hume: " ++ (w ++ ")"))) }
      else
        { success := true, predictions := preds.map mkPrediction, error := none }

/-- Line 649: `MAX_CHUNK_MS = 4500`. -/
def MAX_CHUNK_MS : Nat := 4500

/-- Line 652: the Hume WebSocket 5-second limit guarding the direct path. -/
def LIMIT_MS : Nat := 5000

/-- Line 664: `num_chunks = (duration_ms + MAX_CHUNK_MS - 1) // MAX_CHUNK_MS`. -/
def num_chunks (duration_ms : Nat) : Nat :=
  (duration_ms + MAX_CHUNK_MS - 1) / MAX_CHUNK_MS

/-- Line 667: `range(0, duration_ms, MAX_CHUNK_MS)` — the window start
offsets. For a positive step, Python's range has exactly
`⌈duration_ms / step⌉` elements `0, step, 2*step, ...`, which is the
closed form used here. -/
def windowStarts (duration_ms : Nat) : List Nat :=
  (List.range (num_chunks duration_ms)).map (fun i => i * MAX_CHUNK_MS)

/-- Line 669: `end_ms = min(i + MAX_CHUNK_MS, duration_ms)`. -/
def windowEnd (duration_ms start_ms : Nat) : Nat :=
  min (start_ms + MAX_CHUNK_MS) duration_ms

/-- The `(start_ms, end_ms)` windows of the chunked path, in dispatch
order. -/
def windows (duration_ms : Nat) : List (Nat × Nat) :=
  (windowStarts duration_ms).map (fun s => (s, windowEnd duration_ms s))

/-- Line 675: `chunk_path = f"{wav_file_path}.chunk{i // MAX_CHUNK_MS}.wav"`. -/
def chunkPath (base : String) (idx : Nat) : String :=
  base ++ (".chunk" ++ (toString idx ++ ".wav"))

/-- Lines 687-688: `pred['time']['begin'] + (start_ms / 1000.0) if
pred['time']['begin'] else None`. Python float truthiness: `None` and
`0.0` are falsy, so a missing or zero timestamp becomes `None`; otherwise
the window offset is added. -/
def offsetTime (t : Option ℚ) (off : ℚ) : Option ℚ :=
  match t with
  | none => none
  | some v => if v = 0 then none else some (v + off)

/-- Lines 686-689: shift one prediction's time range by the window start
and tag it with the zero-based chunk index. -/
def offsetPrediction (start_ms idx : Nat) (p : Prediction) : Prediction :=
  { p with
    time := { timeBegin := offsetTime p.time.timeBegin ((start_ms : ℚ) / 1000),
              timeEnd := offsetTime p.time.timeEnd ((start_ms : ℚ) / 1000) },
    chunk_index := some idx }

/-- The single-audio analysis performed for the window starting at
`start_ms` (line 682): the collaborator is consulted on the audio range
`[start_ms, end_ms)`. -/
def chunkResult (oracle : Nat → Nat → HumeResponse) (duration_ms start_ms : Nat) :
    AnalysisResult :=
  analyze_single_audio (oracle start_ms (windowEnd duration_ms start_ms))

/-- Lines 684-693: the predictions a window contributes to `chunks_data` —
its offset-adjusted predictions on success, nothing on failure. -/
def chunkContribution (oracle : Nat → Nat → HumeResponse) (duration_ms start_ms : Nat) :
    List Prediction :=
  let r := chunkResult oracle duration_ms start_ms
  if r.success then
    r.predictions.map (offsetPrediction start_ms (start_ms / MAX_CHUNK_MS))
  else []

/-- Inserting a file name into the filesystem (`chunk.export`, line 676);
an existing file is overwritten in place. -/
def addFile (fs : List String) (f : String) : List String :=
  if f ∈ fs then fs else fs ++ [f]

/-- `Path(chunk_file).unlink()` (line 721): the named file is removed. -/
def removeFile (fs : List String) (f : String) : List String :=
  fs.filter (fun g => g != f)

/-- The `finally` block at lines 716-723: delete every recorded chunk
file. -/
def cleanupFiles (fs : List String) (files : List String) : List String :=
  files.foldl removeFile fs

/-- The loop state of lines 659-693: accumulated predictions, recorded
chunk files, the filesystem, and the trace of inference calls made. -/
structure ChunkState where
  chunks_data : List Prediction
  chunk_files : List String
  fs : List String
  calls : List (Nat × Nat)
deriving DecidableEq

/-- One iteration of the `for i in range(0, duration_ms, MAX_CHUNK_MS)`
loop (lines 667-693): export the chunk file, record it, call the
collaborator on the window, and append the window's contribution. -/
def processWindow (oracle : Nat → Nat → HumeResponse) (base : String) (duration_ms : Nat)
    (st : ChunkState) (start_ms : Nat) : ChunkState :=
  let path := chunkPath base (start_ms / MAX_CHUNK_MS)
  { chunks_data := st.chunks_data ++ chunkContribution oracle duration_ms start_ms,
    chunk_files := st.chunk_files ++ [path],
    fs := addFile st.fs path,
    calls := st.calls ++ [(start_ms, windowEnd duration_ms start_ms)] }

/-- The observable outcome of one `analyze_audio_with_hume` call: the
returned dictionary, the trace of `(start_ms, end_ms)` inference calls,
the chunk files that were created, and the final filesystem. -/
structure RunOutcome where
  result : AnalysisResult
  calls : List (Nat × Nat)
  chunk_files : List String
  fs : List String
deriving DecidableEq

/-- `analyze_audio_with_hume` (lines 622-733). `loadErr` models an
exception raised while loading the audio (caught at line 725); `base` is
`wav_file_path`; `fs0` the filesystem when the call starts. The direct
path (line 652) issues one call on the whole buffer `[0, duration_ms)`;
the chunked path runs the window loop and the `finally` cleanup, then
merges `chunks_data` (lines 695-714). -/
def analyze_audio_run (loadErr : Option String) (duration_ms : Nat)
    (oracle : Nat → Nat → HumeResponse) (base : String) (fs0 : List String) : RunOutcome :=
  match loadErr with
  | some m => { result := { success := false, predictions := [], error := some m },
                calls := [], chunk_files := [], fs := fs0 }
  | none =>
    if duration_ms ≤ LIMIT_MS then
      { result := analyze_single_audio (oracle 0 duration_ms),
        calls := [(0, duration_ms)], chunk_files := [], fs := fs0 }
    else
      let st := (windowStarts duration_ms).foldl (processWindow oracle base duration_ms)
        { chunks_data := [], chunk_files := [], fs := fs0, calls := [] }
      let result : AnalysisResult :=
        if st.chunks_data.isEmpty then
          { success := false, predictions := [], error := some "All chunks failed to analyze" }
        else
          { success := true, predictions := st.chunks_data, error := none }
      { result := result, calls := st.calls, chunk_files := st.chunk_files,
        fs := cleanupFiles st.fs st.chunk_files }

/-- The returned dictionary of `analyze_audio_with_hume`, independent of
the file path and filesystem. -/
def analyze_audio_with_hume (loadErr : Option String) (duration_ms : Nat)
    (oracle : Nat → Nat → HumeResponse) : AnalysisResult :=
  (analyze_audio_run loadErr duration_ms oracle "audio.wav" []).result

/-- One entry of the `triggered_emotions` list built by
`check_emotion_triggers` (lines 505-518): name, score, and the
prediction's whole `time` dictionary. -/
structure TriggeredEmotion where
  name : String
  score : ℚ
  time : PTime
deriving DecidableEq

/-- The dictionary returned by `check_emotion_triggers` (lines 520-524). -/
structure TriggerResult where
  triggered : Bool
  emotions : List TriggeredEmotion
  total_triggers : Nat
deriving DecidableEq

/-- Python's `if not emotion_filters:` — true for `None` and for an empty
dictionary. -/
def filtersEmpty (emotion_filters : Option (List (String × ℚ))) : Bool :=
  match emotion_filters with
  | none => true
  | some fs => fs.isEmpty

/-- The key set of the `emotion_filters` dictionary, probed by
`emotion_name in emotion_filters` (line 513). -/
def filterKeys (emotion_filters : Option (List (String × ℚ))) : List String :=
  match emotion_filters with
  | none => []
  | some fs => fs.map Prod.fst

/-- `check_emotion_triggers` (lines 478-524): nested loops over
predictions and their emotions, appending every emotion in pass-through
mode, otherwise appending exactly those whose name is a filter key — the
threshold value is never consulted. -/
def check_emotion_triggers (predictions : List Prediction)
    (emotion_filters : Option (List (String × ℚ))) : TriggerResult :=
  let triggered_emotions :=
    predictions.foldl (fun acc prediction =>
      prediction.emotions.foldl (fun acc2 emotion =>
        if filtersEmpty emotion_filters then
          acc2 ++ [{ name := emotion.name, score := emotion.score, time := prediction.time }]
        else if (filterKeys emotion_filters).contains emotion.name then
          acc2 ++ [{ name := emotion.name, score := emotion.score, time := prediction.time }]
        else acc2) acc) []
  { triggered := decide (0 < triggered_emotions.length),
    emotions := triggered_emotions,
    total_triggers := triggered_emotions.length }

/-! ### Concrete collaborator stubs used to instantiate the theorems -/

/-- A raw collaborator prediction whose time range starts exactly at the
beginning of its window (`begin = 0.0`). -/
def rpZeroStart : RawPrediction :=
  { time := { timeBegin := some 0, timeEnd := some (1/5) },
    emotions := [{ name := "Joy", score := 9/10 }] }

/-- A raw collaborator prediction with a strictly positive time range. -/
def rpPositive : RawPrediction :=
  { time := { timeBegin := some (1/10), timeEnd := some (1/5) },
    emotions := [{ name := "Joy", score := 9/10 }] }

/-- Stub collaborator for a 9000 ms buffer: window 0 fails, window 1
succeeds with a prediction whose `begin` is exactly `0.0`. -/
def ceOracle : Nat → Nat → HumeResponse := fun s _ =>
  if s = 4500 then .prosody none [rpZeroStart] else .noProsody

/-- Stub collaborator for an 18000 ms buffer: window 2 (start 9000 ms)
fails, the other windows succeed. -/
def c3Oracle : Nat → Nat → HumeResponse := fun s _ =>
  if s = 9000 then .exn "connection reset" else .prosody none [rpPositive]

/-- Stub collaborator that always fails. -/
def failOracle : Nat → Nat → HumeResponse := fun _ _ => .noProsody

/-- A raw collaborator prediction with two emotions in ascending score
order, exercising the defensive re-sort. -/
def rpUnsorted : RawPrediction :=
  { time := { timeBegin := some (1/10), timeEnd := some (2/10) },
    emotions := [{ name := "Calm", score := 1/2 }, { name := "Joy", score := 9/10 }] }

/-- A collaborator response carrying `rpUnsorted` as its only prediction. -/
def unsortedResp : HumeResponse := .prosody none [rpUnsorted]

/-- A prediction list for the trigger evaluator: one prediction holding a
low-scoring Anger and a mid-scoring Joy. -/
def triggerPreds : List Prediction :=
  [{ time := { timeBegin := none, timeEnd := none },
     emotions := [{ name := "Anger", score := 1/10 }, { name := "Joy", score := 1/2 }],
     top_3_emotions := [], chunk_index := none }]

/-! ### Helper lemmas -/

/-- Unrolling the window loop: the final loop state in closed form. -/
theorem foldl_processWindow_eq (oracle : Nat → Nat → HumeResponse) (base : String)
    (duration_ms : Nat) (starts : List Nat) (st : ChunkState) :
    starts.foldl (processWindow oracle base duration_ms) st =
      { chunks_data := st.chunks_data ++ starts.flatMap (chunkContribution oracle duration_ms),
        chunk_files := st.chunk_files
          ++ starts.map (fun s => chunkPath base (s / MAX_CHUNK_MS)),
        fs := starts.foldl (fun fs s => addFile fs (chunkPath base (s / MAX_CHUNK_MS))) st.fs,
        calls := st.calls ++ starts.map (fun s => (s, windowEnd duration_ms s)) } := by
  induction starts generalizing st with
  | nil => simp
  | cons s rest ih =>
      simp [List.foldl_cons, ih, processWindow, List.append_assoc]

/-- The chunked path of `analyze_audio_with_hume` in closed form. -/
theorem run_chunked (oracle : Nat → Nat → HumeResponse) (base : String)
    (duration_ms : Nat) (fs0 : List String) (hd : ¬ duration_ms ≤ LIMIT_MS) :
    analyze_audio_run none duration_ms oracle base fs0 =
      { result :=
          if ((windowStarts duration_ms).flatMap (chunkContribution oracle duration_ms)).isEmpty
          then { success := false, predictions := [],
                 error := some "All chunks failed to analyze" }
          else { success := true,
                 predictions :=
                   (windowStarts duration_ms).flatMap (chunkContribution oracle duration_ms),
                 error := none },
        calls := (windowStarts duration_ms).map (fun s => (s, windowEnd duration_ms s)),
        chunk_files :=
          (windowStarts duration_ms).map (fun s => chunkPath base (s / MAX_CHUNK_MS)),
        fs := cleanupFiles
          ((windowStarts duration_ms).foldl
            (fun fs s => addFile fs (chunkPath base (s / MAX_CHUNK_MS))) fs0)
          ((windowStarts duration_ms).map (fun s => chunkPath base (s / MAX_CHUNK_MS))) } := by
  simp [analyze_audio_run, hd, foldl_processWindow_eq]

/-- Membership after the cleanup loop: a file survives iff it was present
and is not among the deleted names. -/
theorem mem_cleanupFiles (files : List String) (fs : List String) (f : String) :
    f ∈ cleanupFiles fs files ↔ f ∈ fs ∧ f ∉ files := by
  induction files generalizing fs with
  | nil => simp [cleanupFiles]
  | cons g rest ih =>
      simp only [cleanupFiles, List.foldl_cons] at ih ⊢
      rw [ih]
      simp only [removeFile, List.mem_filter, bne_iff_ne, List.mem_cons]
      tauto

/-- Success of the single-audio analysis is exactly "some prosody
predictions came back". -/
theorem analyze_single_audio_success (warning : Option String) (preds : List RawPrediction) :
    (analyze_single_audio (.prosody warning preds)).success = !preds.isEmpty := by
  by_cases hp : preds.isEmpty <;> simp [analyze_single_audio, hp]

/-- On success the single-audio analysis returns the collaborator's
predictions, each rebuilt by `mkPrediction`. -/
theorem analyze_single_audio_preds (warning : Option String) (preds : List RawPrediction)
    (h : preds ≠ []) :
    (analyze_single_audio (.prosody warning preds)).predictions = preds.map mkPrediction := by
  simp [analyze_single_audio, h]

/-- A successful single-audio analysis comes from a prosody response with
a nonempty prediction list. -/
theorem analyze_single_audio_success_shape (resp : HumeResponse)
    (h : (analyze_single_audio resp).success = true) :
    ∃ warning preds, resp = .prosody warning preds ∧ preds ≠ [] ∧
      (analyze_single_audio resp).predictions = preds.map mkPrediction := by
  cases resp with
  | apiError m => simp [analyze_single_audio] at h
  | exn m => simp [analyze_single_audio] at h
  | noProsody => simp [analyze_single_audio] at h
  | prosody warning preds =>
      by_cases hp : preds.isEmpty
      · simp [analyze_single_audio, hp] at h
      · exact ⟨warning, preds, rfl, by simpa using hp,
          analyze_single_audio_preds warning preds (by simpa using hp)⟩

/-- An unsuccessful single-audio analysis carries no predictions. -/
theorem analyze_single_audio_fail (resp : HumeResponse)
    (h : (analyze_single_audio resp).success = false) :
    (analyze_single_audio resp).predictions = [] := by
  cases resp with
  | apiError m => rfl
  | exn m => rfl
  | noProsody => rfl
  | prosody warning preds =>
      by_cases hp : preds.isEmpty
      · simp [analyze_single_audio, hp]
      · simp [analyze_single_audio, hp] at h

/-- A successful single-audio analysis has at least one prediction. -/
theorem analyze_single_audio_success_ne_nil (resp : HumeResponse)
    (h : (analyze_single_audio resp).success = true) :
    (analyze_single_audio resp).predictions ≠ [] := by
  obtain ⟨w, preds, -, hne, hpreds⟩ := analyze_single_audio_success_shape resp h
  simp [hpreds, hne]

/-- Basic arithmetic of the window layout: `num_chunks` brackets the
duration. -/
theorem num_chunks_bracket (d : Nat) (hd : 0 < d) :
    MAX_CHUNK_MS * (num_chunks d - 1) < d ∧ d ≤ MAX_CHUNK_MS * num_chunks d ∧
      0 < num_chunks d := by
  unfold num_chunks MAX_CHUNK_MS
  omega

/-- The window start list is nonempty for a positive duration. -/
theorem windowStarts_ne_nil (d : Nat) (hd : 0 < d) : windowStarts d ≠ [] := by
  have h := (num_chunks_bracket d hd).2.2
  simp only [windowStarts, ne_eq, ← List.length_eq_zero, List.length_map,
    List.length_range]
  omega

/-- Membership in the window start list. -/
theorem mem_windowStarts (d s : Nat) :
    s ∈ windowStarts d ↔ ∃ i, i < num_chunks d ∧ s = i * MAX_CHUNK_MS := by
  simp only [windowStarts, List.mem_map, List.mem_range]
  constructor
  · rintro ⟨i, hi, rfl⟩; exact ⟨i, hi, rfl⟩
  · rintro ⟨i, hi, rfl⟩; exact ⟨i, hi, rfl⟩

/-- Loop-free form of an append-accumulating inner fold over the emotion
list of one prediction. -/
theorem foldl_trigger_inner (c : Bool) (keys : List String) (pt : PTime)
    (emos : List EmotionScore) (acc : List TriggeredEmotion) :
    emos.foldl (fun acc2 emotion =>
        if c then acc2 ++ [{ name := emotion.name, score := emotion.score, time := pt }]
        else if keys.contains emotion.name then
          acc2 ++ [{ name := emotion.name, score := emotion.score, time := pt }]
        else acc2) acc
      = acc ++ emos.flatMap (fun emotion =>
          if c then [{ name := emotion.name, score := emotion.score, time := pt }]
          else if keys.contains emotion.name then
            [{ name := emotion.name, score := emotion.score, time := pt }]
          else []) := by
  induction emos generalizing acc with
  | nil => simp
  | cons e rest ih =>
      rw [List.foldl_cons, ih]
      by_cases hc : c
      · simp [hc, List.append_assoc]
      · by_cases hk : e.name ∈ keys <;>
          simp [hc, hk, List.append_assoc]

/-- Loop-free form of the outer fold of `check_emotion_triggers`. -/
theorem foldl_trigger_outer (g : Prediction → List TriggeredEmotion)
    (preds : List Prediction) (acc : List TriggeredEmotion) :
    preds.foldl (fun acc p => acc ++ g p) acc = acc ++ preds.flatMap g := by
  induction preds generalizing acc with
  | nil => simp
  | cons p rest ih => simp [ih, List.append_assoc]

/-- A guarded singleton `flatMap` is a filtered map. -/
theorem flatMap_ite_singleton {α β : Type} (p : α → Bool) (g : α → β) (l : List α) :
    (l.flatMap fun x => if p x then [g x] else []) = (l.filter p).map g := by
  induction l with
  | nil => simp
  | cons x rest ih =>
      by_cases hx : p x <;> simp [hx, ih]

/-- An unguarded singleton `flatMap` is a map. -/
theorem flatMap_singleton_eq_map {α β : Type} (g : α → β) (l : List α) :
    (l.flatMap fun x => [g x]) = l.map g := by
  induction l with
  | nil => rfl
  | cons x rest ih => simp [ih]

/-- `triggered_emotions` of `check_emotion_triggers` in loop-free form. -/
theorem check_emotion_triggers_emotions (predictions : List Prediction)
    (emotion_filters : Option (List (String × ℚ))) :
    (check_emotion_triggers predictions emotion_filters).emotions
      = predictions.flatMap (fun p =>
          p.emotions.flatMap (fun emotion =>
            if filtersEmpty emotion_filters then
              [{ name := emotion.name, score := emotion.score, time := p.time }]
            else if (filterKeys emotion_filters).contains emotion.name then
              [{ name := emotion.name, score := emotion.score, time := p.time }]
            else [])) := by
  simp only [check_emotion_triggers]
  rw [show (fun (acc : List TriggeredEmotion) (prediction : Prediction) =>
        prediction.emotions.foldl (fun acc2 emotion =>
          if filtersEmpty emotion_filters then
            acc2 ++ [{ name := emotion.name, score := emotion.score, time := prediction.time }]
          else if (filterKeys emotion_filters).contains emotion.name then
            acc2 ++ [{ name := emotion.name, score := emotion.score, time := prediction.time }]
          else acc2) acc)
      = (fun acc prediction => acc ++ prediction.emotions.flatMap (fun emotion =>
          if filtersEmpty emotion_filters then
            [{ name := emotion.name, score := emotion.score, time := prediction.time }]
          else if (filterKeys emotion_filters).contains emotion.name then
            [{ name := emotion.name, score := emotion.score, time := prediction.time }]
          else [])) from ?_]
  · rw [foldl_trigger_outer]
    simp
  · funext acc prediction
    exact foldl_trigger_inner (filtersEmpty emotion_filters)
      (filterKeys emotion_filters) prediction.time prediction.emotions acc

/-- `len(l) > 0` as a Bool is the negation of emptiness. -/
theorem decide_pos_length {α : Type} (l : List α) :
    decide (0 < l.length) = !l.isEmpty := by
  cases l <;> simp

/-- The window starts are dispatched in strictly increasing order. -/
theorem windowStarts_sorted (d : Nat) : List.Pairwise (· < ·) (windowStarts d) := by
  unfold windowStarts
  rw [List.pairwise_map]
  exact (List.pairwise_lt_range (num_chunks d)).imp
    (fun h => by simp only [MAX_CHUNK_MS]; omega)

/-! ### Claim theorems -/

/-- C6: for every buffer with `duration_ms ≤ 5000`, `analyze_audio_with_hume`
makes exactly one inference call, on the whole original buffer
`[0, duration_ms)`, creates no chunk files, leaves the filesystem
untouched, and returns that single call's result unchanged. -/
theorem C6_direct_path (duration_ms : Nat) (oracle : Nat → Nat → HumeResponse)
    (base : String) (fs0 : List String) (hd : duration_ms ≤ 5000) :
    analyze_audio_run none duration_ms oracle base fs0 =
      { result := analyze_single_audio (oracle 0 duration_ms),
        calls := [(0, duration_ms)], chunk_files := [], fs := fs0 } := by
  simp [analyze_audio_run, LIMIT_MS, hd]

/-- Witness for C6 on a 3000 ms buffer. -/
theorem C6_direct_path_witness :
    3000 ≤ 5000 ∧
    analyze_audio_run none 3000 failOracle "audio.wav" [] =
      { result := analyze_single_audio (failOracle 0 3000),
        calls := [(0, 3000)], chunk_files := [], fs := [] } :=
  ⟨by norm_num, C6_direct_path 3000 failOracle "audio.wav" [] (by norm_num)⟩

/-- C10: a collaborator response that succeeds at transport level but
carries an empty prosody prediction list is classified by
`_analyze_single_audio` as a failure: `success = false`, no predictions,
and an error message starting with "No speech detected in audio". -/
theorem C10_no_speech (warning : Option String) :
    (analyze_single_audio (.prosody warning [])).success = false ∧
    (analyze_single_audio (.prosody warning [])).predictions = [] ∧
    ∃ t, (analyze_single_audio (.prosody warning [])).error
      = some ("No speech detected in audio" ++ t) := by
  cases warning with
  | none => exact ⟨rfl, rfl, "", rfl⟩
  | some w => exact ⟨rfl, rfl, " (Hume: " ++ (w ++ ")"), rfl⟩

/-- C4: if every window of a chunked analysis fails, the merged result is
`success = false` with an empty prediction list and the descriptive error
string of line 708; no exception escapes (the embedding is a total
function into `AnalysisResult`). -/
theorem C4_total_failure (duration_ms : Nat) (oracle : Nat → Nat → HumeResponse)
    (hd : 5000 < duration_ms)
    (hall : ∀ s ∈ windowStarts duration_ms,
      (chunkResult oracle duration_ms s).success = false) :
    analyze_audio_with_hume none duration_ms oracle =
      { success := false, predictions := [],
        error := some "All chunks failed to analyze" } := by
  have hd' : ¬ duration_ms ≤ LIMIT_MS := by simp only [LIMIT_MS]; omega
  rw [analyze_audio_with_hume, run_chunked oracle "audio.wav" duration_ms [] hd']
  have hnil : (windowStarts duration_ms).flatMap (chunkContribution oracle duration_ms)
      = [] := by
    rw [List.flatMap_eq_nil_iff]
    intro s hs
    simp [chunkContribution, hall s hs]
  simp [hnil]

/-- Witness for C4 on a 12000 ms buffer whose three windows all fail. -/
theorem C4_total_failure_witness :
    5000 < 12000 ∧
    (∀ s ∈ windowStarts 12000, (chunkResult failOracle 12000 s).success = false) ∧
    analyze_audio_with_hume none 12000 failOracle =
      { success := false, predictions := [],
        error := some "All chunks failed to analyze" } :=
  ⟨by norm_num, by decide, C4_total_failure 12000 failOracle (by norm_num) (by decide)⟩

/-- C7: every result returned by `analyze_audio_with_hume` — load-failure
branch, direct path, chunked success and chunked total-failure branches —
has an empty prediction list whenever `success = false`. -/
theorem C7_fail_implies_no_predictions (loadErr : Option String) (duration_ms : Nat)
    (oracle : Nat → Nat → HumeResponse)
    (h : (analyze_audio_with_hume loadErr duration_ms oracle).success = false) :
    (analyze_audio_with_hume loadErr duration_ms oracle).predictions = [] := by
  cases loadErr with
  | some m => rfl
  | none =>
    by_cases hd : duration_ms ≤ LIMIT_MS
    · have hdir : analyze_audio_with_hume none duration_ms oracle
          = analyze_single_audio (oracle 0 duration_ms) := by
        simp [analyze_audio_with_hume, analyze_audio_run, hd]
      rw [hdir] at h ⊢
      exact analyze_single_audio_fail _ h
    · rw [analyze_audio_with_hume,
        run_chunked oracle "audio.wav" duration_ms [] hd] at h ⊢
      by_cases hnil :
        ((windowStarts duration_ms).flatMap
          (chunkContribution oracle duration_ms)).isEmpty
      · simp [hnil]
      · simp [hnil] at h

/-- Witness for C7 on the load-failure branch. -/
theorem C7_fail_implies_no_predictions_witness :
    (analyze_audio_with_hume (some "boom") 0 failOracle).success = false ∧
    (analyze_audio_with_hume (some "boom") 0 failOracle).predictions = [] :=
  ⟨rfl, C7_fail_implies_no_predictions (some "boom") 0 failOracle rfl⟩

/-- C5: the trigger evaluator. In pass-through mode — `filters` null OR
the empty dictionary (the program's default `emotion_thresholds = {}`) —
every emotion of every prediction is matched in encounter order; with a
non-empty filter dictionary an emotion is matched iff its name is a key —
the threshold value is never compared, witnessed by the result depending
only on the key list; `triggered` is exactly non-emptiness of the matched
list. -/
theorem C5_trigger_evaluator (preds : List Prediction) (fs fs2 : List (String × ℚ))
    (hkeys : fs.map Prod.fst = fs2.map Prod.fst) :
    (check_emotion_triggers preds none).emotions
      = preds.flatMap (fun p => p.emotions.map
          (fun e => { name := e.name, score := e.score, time := p.time })) ∧
    ((check_emotion_triggers preds (some ([] : List (String × ℚ)))).emotions
      = preds.flatMap (fun p => p.emotions.map
          (fun e => { name := e.name, score := e.score, time := p.time }))) ∧
    (fs ≠ [] →
      (check_emotion_triggers preds (some fs)).emotions
        = preds.flatMap (fun p =>
            (p.emotions.filter (fun e => (fs.map Prod.fst).contains e.name)).map
              (fun e => { name := e.name, score := e.score, time := p.time }))) ∧
    ((check_emotion_triggers preds (some fs)).triggered
      = !(check_emotion_triggers preds (some fs)).emotions.isEmpty) ∧
    ((check_emotion_triggers preds none).triggered
      = !(check_emotion_triggers preds none).emotions.isEmpty) ∧
    check_emotion_triggers preds (some fs) = check_emotion_triggers preds (some fs2) := by
  refine ⟨?_, ?_, ?_, ?_, ?_, ?_⟩
  · rw [check_emotion_triggers_emotions]
    simp [filtersEmpty, flatMap_singleton_eq_map]
  · rw [check_emotion_triggers_emotions]
    simp [filtersEmpty, flatMap_singleton_eq_map]
  · intro hfs
    rw [check_emotion_triggers_emotions]
    have he : filtersEmpty (some fs) = false := by simp [filtersEmpty, hfs]
    simp [he, filterKeys, flatMap_ite_singleton]
  · simp only [check_emotion_triggers]
    exact decide_pos_length _
  · simp only [check_emotion_triggers]
    exact decide_pos_length _
  · have h1 : filtersEmpty (some fs) = filtersEmpty (some fs2) := by
      cases fs <;> cases fs2 <;> simp_all [filtersEmpty]
    have h2 : filterKeys (some fs) = filterKeys (some fs2) := by
      simp [filterKeys, hkeys]
    simp only [check_emotion_triggers, h1, h2]

/-- Witness for C5: one prediction with Anger 0.1 and Joy 0.5, filters
with an Anger threshold of 0.9 versus 0.1 — same keys, same result, and
the low-scoring Anger is matched. -/
theorem C5_trigger_evaluator_witness :
    ([(("Anger" : String), (9/10 : ℚ))].map Prod.fst
      = [(("Anger" : String), (1/10 : ℚ))].map Prod.fst) ∧
    ((check_emotion_triggers triggerPreds none).emotions
      = triggerPreds.flatMap (fun p => p.emotions.map
          (fun e => { name := e.name, score := e.score, time := p.time })) ∧
    ((check_emotion_triggers triggerPreds (some ([] : List (String × ℚ)))).emotions
      = triggerPreds.flatMap (fun p => p.emotions.map
          (fun e => { name := e.name, score := e.score, time := p.time }))) ∧
    ([(("Anger" : String), (9/10 : ℚ))] ≠ [] →
      (check_emotion_triggers triggerPreds (some [("Anger", 9/10)])).emotions
        = triggerPreds.flatMap (fun p =>
            (p.emotions.filter
              (fun e => ([(("Anger" : String), (9/10 : ℚ))].map Prod.fst).contains e.name)).map
              (fun e => { name := e.name, score := e.score, time := p.time }))) ∧
    ((check_emotion_triggers triggerPreds (some [("Anger", 9/10)])).triggered
      = !(check_emotion_triggers triggerPreds (some [("Anger", 9/10)])).emotions.isEmpty) ∧
    ((check_emotion_triggers triggerPreds none).triggered
      = !(check_emotion_triggers triggerPreds none).emotions.isEmpty) ∧
    check_emotion_triggers triggerPreds (some [("Anger", 9/10)])
      = check_emotion_triggers triggerPreds (some [("Anger", 1/10)])) :=
  ⟨rfl, C5_trigger_evaluator triggerPreds [("Anger", 9/10)] [("Anger", 1/10)] rfl⟩

/-- C1 counterexample: in a 9000 ms chunked analysis the collaborator's
window-1 prediction has `time_range` present with `begin = 0`, `end = 1/5`.
The claim demands merged `begin = 0 + 1*4.5 = 9/2`, but the code's
truthiness guard (`... if pred['time']['begin'] else None`) maps the falsy
`0.0` to `None`: the merged prediction has `begin = none`, not
`some (9/2)`. -/
theorem C1_counterexample :
    ceOracle 4500 9000 = .prosody none [rpZeroStart] ∧
    rpZeroStart.time.timeBegin = some 0 ∧
    ((analyze_audio_with_hume none 9000 ceOracle).predictions.map
        (fun p => (p.time.timeBegin, p.chunk_index)))
      = [((none : Option ℚ), some 1)] ∧
    ¬ ((analyze_audio_with_hume none 9000 ceOracle).predictions.map
        (fun p => p.time.timeBegin))
      = [some ((0 : ℚ) + 1 * (9/2))] :=
  ⟨rfl, rfl, by decide, by decide⟩

/-- C1 (amended): in the chunked path, every prediction `p` of a
succeeding window `i` (start `i*4500` ms) appears in the merged output as
`offsetPrediction (i*4500) i p`, tagged `chunk_index = i`; its output
`begin` (resp. `end`) is `collaborator value + i*4.5` seconds when the
collaborator value is present and nonzero, and `none` when the
collaborator value is absent or exactly `0` (Python float truthiness in
lines 687-688). -/
theorem C1_offset_law (duration_ms : Nat) (oracle : Nat → Nat → HumeResponse)
    (i : Nat) (p : Prediction)
    (hd : 5000 < duration_ms) (hi : i < num_chunks duration_ms)
    (hs : (chunkResult oracle duration_ms (i * MAX_CHUNK_MS)).success = true)
    (hp : p ∈ (chunkResult oracle duration_ms (i * MAX_CHUNK_MS)).predictions) :
    offsetPrediction (i * MAX_CHUNK_MS) i p
      ∈ (analyze_audio_with_hume none duration_ms oracle).predictions ∧
    (analyze_audio_with_hume none duration_ms oracle).success = true ∧
    (offsetPrediction (i * MAX_CHUNK_MS) i p).chunk_index = some i ∧
    ((offsetPrediction (i * MAX_CHUNK_MS) i p).time.timeBegin
      = match p.time.timeBegin with
        | none => none
        | some b => if b = 0 then none else some (b + (i : ℚ) * (9/2))) ∧
    ((offsetPrediction (i * MAX_CHUNK_MS) i p).time.timeEnd
      = match p.time.timeEnd with
        | none => none
        | some e => if e = 0 then none else some (e + (i : ℚ) * (9/2))) := by
  have hd' : ¬ duration_ms ≤ LIMIT_MS := by simp only [LIMIT_MS]; omega
  have hidx : i * MAX_CHUNK_MS / MAX_CHUNK_MS = i := by simp only [MAX_CHUNK_MS]; omega
  have hmem : i * MAX_CHUNK_MS ∈ windowStarts duration_ms :=
    (mem_windowStarts duration_ms _).mpr ⟨i, hi, rfl⟩
  have harith : ((i : ℚ) * ((MAX_CHUNK_MS : ℕ) : ℚ)) / 1000 = (i : ℚ) * (9/2) := by
    simp only [MAX_CHUNK_MS]
    push_cast
    ring
  have hcc : chunkContribution oracle duration_ms (i * MAX_CHUNK_MS)
      = (chunkResult oracle duration_ms (i * MAX_CHUNK_MS)).predictions.map
          (offsetPrediction (i * MAX_CHUNK_MS) i) := by
    simp [chunkContribution, hs, hidx]
  have hq : offsetPrediction (i * MAX_CHUNK_MS) i p
      ∈ chunkContribution oracle duration_ms (i * MAX_CHUNK_MS) := by
    rw [hcc]
    exact List.mem_map_of_mem _ hp
  have hflat : offsetPrediction (i * MAX_CHUNK_MS) i p
      ∈ (windowStarts duration_ms).flatMap (chunkContribution oracle duration_ms) :=
    List.mem_flatMap.mpr ⟨i * MAX_CHUNK_MS, hmem, hq⟩
  have hne : ¬ ((windowStarts duration_ms).flatMap
      (chunkContribution oracle duration_ms)).isEmpty = true := by
    rw [List.isEmpty_iff]
    exact List.ne_nil_of_mem hflat
  rw [analyze_audio_with_hume, run_chunked oracle "audio.wav" duration_ms [] hd']
  refine ⟨?_, ?_, rfl, ?_, ?_⟩
  · simp only [if_neg hne]
    exact hflat
  · simp only [if_neg hne]
  · cases hb : p.time.timeBegin with
    | none => simp [offsetPrediction, offsetTime, hb]
    | some b => simp [offsetPrediction, offsetTime, hb, harith]
  · cases hb : p.time.timeEnd with
    | none => simp [offsetPrediction, offsetTime, hb]
    | some e => simp [offsetPrediction, offsetTime, hb, harith]

/-- Witness for the amended C1: the 9000 ms run with `ceOracle`, window 1,
the prediction with `begin = 0` and `end = 1/5`. -/
theorem C1_offset_law_witness :
    5000 < 9000 ∧ 1 < num_chunks 9000 ∧
    (chunkResult ceOracle 9000 (1 * MAX_CHUNK_MS)).success = true ∧
    mkPrediction rpZeroStart ∈ (chunkResult ceOracle 9000 (1 * MAX_CHUNK_MS)).predictions ∧
    (offsetPrediction (1 * MAX_CHUNK_MS) 1 (mkPrediction rpZeroStart)
        ∈ (analyze_audio_with_hume none 9000 ceOracle).predictions ∧
      (analyze_audio_with_hume none 9000 ceOracle).success = true ∧
      (offsetPrediction (1 * MAX_CHUNK_MS) 1 (mkPrediction rpZeroStart)).chunk_index
        = some 1 ∧
      ((offsetPrediction (1 * MAX_CHUNK_MS) 1 (mkPrediction rpZeroStart)).time.timeBegin
        = match (mkPrediction rpZeroStart).time.timeBegin with
          | none => none
          | some b => if b = 0 then none else some (b + (1 : ℚ) * (9/2))) ∧
      ((offsetPrediction (1 * MAX_CHUNK_MS) 1 (mkPrediction rpZeroStart)).time.timeEnd
        = match (mkPrediction rpZeroStart).time.timeEnd with
          | none => none
          | some e => if e = 0 then none else some (e + (1 : ℚ) * (9/2)))) :=
  ⟨by norm_num, by norm_num [num_chunks, MAX_CHUNK_MS],
    by simp [chunkResult, ceOracle, MAX_CHUNK_MS, windowEnd, analyze_single_audio],
    by simp [chunkResult, ceOracle, MAX_CHUNK_MS, windowEnd, analyze_single_audio],
    C1_offset_law 9000 ceOracle 1 (mkPrediction rpZeroStart) (by norm_num)
      (by norm_num [num_chunks, MAX_CHUNK_MS])
      (by simp [chunkResult, ceOracle, MAX_CHUNK_MS, windowEnd, analyze_single_audio])
      (by simp [chunkResult, ceOracle, MAX_CHUNK_MS, windowEnd, analyze_single_audio])⟩

/-- C3: if at least one window of a chunked analysis succeeds, the result
has `success = true` and its predictions are exactly the concatenation,
over the strictly increasing window start list, of each window's
contribution — the offset predictions of succeeding windows, nothing from
failing windows (which do not abort the loop). -/
theorem C3_window_failure_isolated (duration_ms : Nat)
    (oracle : Nat → Nat → HumeResponse) (hd : 5000 < duration_ms)
    (hex : ∃ s ∈ windowStarts duration_ms,
      (chunkResult oracle duration_ms s).success = true) :
    (analyze_audio_with_hume none duration_ms oracle).success = true ∧
    (analyze_audio_with_hume none duration_ms oracle).predictions
      = (windowStarts duration_ms).flatMap (chunkContribution oracle duration_ms) ∧
    (∀ s ∈ windowStarts duration_ms,
      (chunkResult oracle duration_ms s).success = false →
        chunkContribution oracle duration_ms s = []) ∧
    (∀ s ∈ windowStarts duration_ms,
      (chunkResult oracle duration_ms s).success = true →
        chunkContribution oracle duration_ms s
          = (chunkResult oracle duration_ms s).predictions.map
              (offsetPrediction s (s / MAX_CHUNK_MS))) ∧
    List.Pairwise (· < ·) (windowStarts duration_ms) := by
  obtain ⟨s0, hs0mem, hs0⟩ := hex
  have hd' : ¬ duration_ms ≤ LIMIT_MS := by simp only [LIMIT_MS]; omega
  have hpne := analyze_single_audio_success_ne_nil _ hs0
  have hcon : chunkContribution oracle duration_ms s0 ≠ [] := by
    simp only [chunkContribution, hs0, if_true, ne_eq, List.map_eq_nil_iff]
    exact hpne
  have hflatne : (windowStarts duration_ms).flatMap (chunkContribution oracle duration_ms)
      ≠ [] := by
    intro h
    rw [List.flatMap_eq_nil_iff] at h
    exact hcon (h s0 hs0mem)
  have hne : ¬ ((windowStarts duration_ms).flatMap
      (chunkContribution oracle duration_ms)).isEmpty = true := by
    rw [List.isEmpty_iff]
    exact hflatne
  rw [analyze_audio_with_hume, run_chunked oracle "audio.wav" duration_ms [] hd']
  refine ⟨?_, ?_, ?_, ?_, windowStarts_sorted duration_ms⟩
  · simp only [if_neg hne]
  · simp only [if_neg hne]
  · intro s _ hfail
    simp [chunkContribution, hfail]
  · intro s _ hsucc
    simp [chunkContribution, hsucc]

/-- Witness for C3: an 18000 ms buffer with four windows, window 2
failing with a transport error, the other three succeeding. -/
theorem C3_window_failure_isolated_witness :
    5000 < 18000 ∧
    (∃ s ∈ windowStarts 18000, (chunkResult c3Oracle 18000 s).success = true) ∧
    ((analyze_audio_with_hume none 18000 c3Oracle).success = true ∧
    (analyze_audio_with_hume none 18000 c3Oracle).predictions
      = (windowStarts 18000).flatMap (chunkContribution c3Oracle 18000) ∧
    (∀ s ∈ windowStarts 18000,
      (chunkResult c3Oracle 18000 s).success = false →
        chunkContribution c3Oracle 18000 s = []) ∧
    (∀ s ∈ windowStarts 18000,
      (chunkResult c3Oracle 18000 s).success = true →
        chunkContribution c3Oracle 18000 s
          = (chunkResult c3Oracle 18000 s).predictions.map
              (offsetPrediction s (s / MAX_CHUNK_MS))) ∧
    List.Pairwise (· < ·) (windowStarts 18000)) :=
  ⟨by norm_num, by decide,
    C3_window_failure_isolated 18000 c3Oracle (by norm_num) (by decide)⟩

/-- C8: every prediction returned by a successful single-audio analysis
carries an emotion list that is the collaborator's list re-sorted
descending by score: a permutation of the input, pairwise descending, and
the identity on an already-descending list (idempotent defensive sort). -/
theorem C8_defensive_sort (resp : HumeResponse) (q : Prediction)
    (hs : (analyze_single_audio resp).success = true)
    (hq : q ∈ (analyze_single_audio resp).predictions) :
    ∃ warning preds, resp = .prosody warning preds ∧
      ∃ rp ∈ preds, q = mkPrediction rp ∧
        q.emotions = sortEmotionsDesc rp.emotions ∧
        q.emotions.Perm rp.emotions ∧
        q.emotions.Sorted scoreDesc ∧
        (rp.emotions.Sorted scoreDesc → q.emotions = rp.emotions) := by
  obtain ⟨w, preds, rfl, hne, hpreds⟩ := analyze_single_audio_success_shape resp hs
  rw [hpreds] at hq
  obtain ⟨rp, hrp, rfl⟩ := List.mem_map.mp hq
  refine ⟨w, preds, rfl, rp, hrp, rfl, rfl, ?_, ?_, ?_⟩
  · exact List.perm_insertionSort scoreDesc rp.emotions
  · exact List.sorted_insertionSort scoreDesc rp.emotions
  · intro hsorted
    exact hsorted.insertionSort_eq

/-- Witness for C8: a response whose only prediction lists Calm 0.5 before
Joy 0.9 — the returned prediction re-sorts them descending. -/
theorem C8_defensive_sort_witness :
    (analyze_single_audio unsortedResp).success = true ∧
    mkPrediction rpUnsorted ∈ (analyze_single_audio unsortedResp).predictions ∧
    (∃ warning preds, unsortedResp = .prosody warning preds ∧
      ∃ rp ∈ preds,
        mkPrediction rpUnsorted = mkPrediction rp ∧
        (mkPrediction rpUnsorted).emotions = sortEmotionsDesc rp.emotions ∧
        (mkPrediction rpUnsorted).emotions.Perm rp.emotions ∧
        (mkPrediction rpUnsorted).emotions.Sorted scoreDesc ∧
        (rp.emotions.Sorted scoreDesc →
          (mkPrediction rpUnsorted).emotions = rp.emotions)) :=
  ⟨by simp [unsortedResp, analyze_single_audio],
    by simp [unsortedResp, analyze_single_audio],
    C8_defensive_sort unsortedResp (mkPrediction rpUnsorted)
      (by simp [unsortedResp, analyze_single_audio])
      (by simp [unsortedResp, analyze_single_audio])⟩

/-- C9: in every chunked analysis, one chunk file is created per window
and every one of them is deleted by the `finally` cleanup — no chunk file
survives the call, whatever the per-window outcomes. -/
theorem C9_resource_release (duration_ms : Nat) (oracle : Nat → Nat → HumeResponse)
    (base : String) (fs0 : List String) (hd : 5000 < duration_ms) :
    (analyze_audio_run none duration_ms oracle base fs0).chunk_files
      = (windowStarts duration_ms).map (fun s => chunkPath base (s / MAX_CHUNK_MS)) ∧
    (analyze_audio_run none duration_ms oracle base fs0).chunk_files ≠ [] ∧
    (∀ f ∈ (analyze_audio_run none duration_ms oracle base fs0).chunk_files,
      f ∉ (analyze_audio_run none duration_ms oracle base fs0).fs) := by
  have hd' : ¬ duration_ms ≤ LIMIT_MS := by simp only [LIMIT_MS]; omega
  rw [run_chunked oracle base duration_ms fs0 hd']
  refine ⟨rfl, ?_, ?_⟩
  · simp only [ne_eq, List.map_eq_nil_iff]
    exact windowStarts_ne_nil duration_ms (by omega)
  · intro f hf
    rw [mem_cleanupFiles]
    rintro ⟨-, hnot⟩
    exact hnot hf

/-- C2: for every `duration_ms > 5000` the chunked path builds exactly
`ceil(duration_ms / 4500)` windows; they start at `0`, are contiguous
(each window's end is the next window's start), end at `duration_ms`,
are each of length 4500 except the last, whose length is
`duration_ms - 4500*(count-1)`, are nonempty, and are dispatched in
strictly increasing start order. -/
theorem C2_window_layout (duration_ms : Nat) (hd : 5000 < duration_ms) :
    (windowStarts duration_ms).length = num_chunks duration_ms ∧
    ⌈(duration_ms : ℚ) / ((MAX_CHUNK_MS : ℕ) : ℚ)⌉ = (num_chunks duration_ms : ℤ) ∧
    windows duration_ms
      = (List.range (num_chunks duration_ms)).map
          (fun i => (i * MAX_CHUNK_MS, min ((i + 1) * MAX_CHUNK_MS) duration_ms)) ∧
    (windows duration_ms).head? = some (0, MAX_CHUNK_MS) ∧
    List.Chain' (fun w w2 => w.2 = w2.1) (windows duration_ms) ∧
    (windows duration_ms).getLast?
      = some ((num_chunks duration_ms - 1) * MAX_CHUNK_MS, duration_ms) ∧
    ((windows duration_ms).dropLast.all (fun w => w.2 - w.1 == MAX_CHUNK_MS)) = true ∧
    ((windows duration_ms).getLast?.map (fun w => w.2 - w.1))
      = some (duration_ms - MAX_CHUNK_MS * (num_chunks duration_ms - 1)) ∧
    ((windows duration_ms).all (fun w => decide (w.1 < w.2))) = true ∧
    List.Pairwise (fun w w2 : Nat × Nat => w.1 < w2.1) (windows duration_ms) := by
  have hb1 : 4500 * (num_chunks duration_ms - 1) < duration_ms := by
    simpa [MAX_CHUNK_MS] using (num_chunks_bracket duration_ms (by omega)).1
  have hb2 : duration_ms ≤ 4500 * num_chunks duration_ms := by
    simpa [MAX_CHUNK_MS] using (num_chunks_bracket duration_ms (by omega)).2.1
  have hb3 : 0 < num_chunks duration_ms := (num_chunks_bracket duration_ms (by omega)).2.2
  obtain ⟨m, hm⟩ : ∃ m, num_chunks duration_ms = m + 1 :=
    ⟨num_chunks duration_ms - 1, by omega⟩
  rw [hm] at hb1 hb2
  simp only [Nat.add_sub_cancel] at hb1
  have hwin : windows duration_ms
      = (List.range (num_chunks duration_ms)).map
          (fun i => (i * MAX_CHUNK_MS, min ((i + 1) * MAX_CHUNK_MS) duration_ms)) := by
    simp only [windows, windowStarts, List.map_map]
    apply List.map_congr_left
    intro i _
    simp [windowEnd, Nat.succ_mul]
  have hlast : (windows duration_ms).getLast?
      = some ((num_chunks duration_ms - 1) * MAX_CHUNK_MS, duration_ms) := by
    rw [hwin, List.getLast?_map, hm, List.getLast?_eq_getElem?, List.length_range,
      Nat.add_sub_cancel, List.getElem?_range (by omega : m < m + 1), Option.map_some']
    have hmin : min ((m + 1) * MAX_CHUNK_MS) duration_ms = duration_ms := by
      simp only [MAX_CHUNK_MS]
      omega
    rw [hmin]
  refine ⟨?_, ?_, hwin, ?_, ?_, hlast, ?_, ?_, ?_, ?_⟩
  · simp [windowStarts]
  · rw [Int.ceil_eq_iff]
    have hlt : ((4500 * m : ℕ) : ℚ) < (duration_ms : ℚ) := by exact_mod_cast hb1
    have hle : ((duration_ms : ℕ) : ℚ) ≤ ((4500 * (m + 1) : ℕ) : ℚ) := by exact_mod_cast hb2
    push_cast at hlt hle
    constructor
    · rw [lt_div_iff₀ (by norm_num [MAX_CHUNK_MS] : (0 : ℚ) < ((MAX_CHUNK_MS : ℕ) : ℚ))]
      rw [hm]
      simp only [MAX_CHUNK_MS]
      push_cast
      linarith
    · rw [div_le_iff₀ (by norm_num [MAX_CHUNK_MS] : (0 : ℚ) < ((MAX_CHUNK_MS : ℕ) : ℚ))]
      rw [hm]
      simp only [MAX_CHUNK_MS]
      push_cast
      linarith
  · rw [hwin, List.head?_map, hm, List.head?_eq_getElem?,
      List.getElem?_range (by omega : 0 < m + 1), Option.map_some']
    have hmin : min ((0 + 1) * MAX_CHUNK_MS) duration_ms = MAX_CHUNK_MS := by
      simp only [MAX_CHUNK_MS]
      omega
    rw [hmin]
    simp
  · rw [hwin, List.chain'_map, hm]
    refine (List.chain'_range_succ _ m).mpr (fun k hk => ?_)
    simp only [MAX_CHUNK_MS]
    omega
  · rw [hwin, ← List.map_dropLast, hm, List.range_succ, List.dropLast_concat,
      List.all_eq_true]
    intro w hw
    rw [List.mem_map] at hw
    obtain ⟨k, hk, rfl⟩ := hw
    rw [List.mem_range] at hk
    rw [beq_iff_eq]
    simp only [MAX_CHUNK_MS]
    omega
  · rw [hlast, Option.map_some', hm]
    simp only [Nat.add_sub_cancel]
    rw [Nat.mul_comm]
  · rw [hwin, List.all_eq_true]
    intro w hw
    rw [List.mem_map] at hw
    obtain ⟨k, hk, rfl⟩ := hw
    rw [List.mem_range, hm] at hk
    rw [decide_eq_true_eq]
    simp only [MAX_CHUNK_MS]
    omega
  · rw [hwin, List.pairwise_map]
    exact (List.pairwise_lt_range _).imp
      (fun h => by simp only [MAX_CHUNK_MS]; omega)

/-- Witness for C2 on the spec's 12000 ms scenario (three windows of
4500, 4500, 3000 ms). -/
theorem C2_window_layout_witness :
    5000 < 12000 ∧
    ((windowStarts 12000).length = num_chunks 12000 ∧
    ⌈(12000 : ℚ) / ((MAX_CHUNK_MS : ℕ) : ℚ)⌉ = (num_chunks 12000 : ℤ) ∧
    windows 12000
      = (List.range (num_chunks 12000)).map
          (fun i => (i * MAX_CHUNK_MS, min ((i + 1) * MAX_CHUNK_MS) 12000)) ∧
    (windows 12000).head? = some (0, MAX_CHUNK_MS) ∧
    List.Chain' (fun w w2 => w.2 = w2.1) (windows 12000) ∧
    (windows 12000).getLast? = some ((num_chunks 12000 - 1) * MAX_CHUNK_MS, 12000) ∧
    ((windows 12000).dropLast.all (fun w => w.2 - w.1 == MAX_CHUNK_MS)) = true ∧
    ((windows 12000).getLast?.map (fun w => w.2 - w.1))
      = some (12000 - MAX_CHUNK_MS * (num_chunks 12000 - 1)) ∧
    ((windows 12000).all (fun w => decide (w.1 < w.2))) = true ∧
    List.Pairwise (fun w w2 : Nat × Nat => w.1 < w2.1) (windows 12000)) :=
  ⟨by norm_num, C2_window_layout 12000 (by norm_num)⟩

/-- Witness for C9: a 12000 ms all-fail run starting from a filesystem
holding an unrelated file. -/
theorem C9_resource_release_witness :
    5000 < 12000 ∧
    ((analyze_audio_run none 12000 failOracle "audio.wav" ["keep.txt"]).chunk_files
      = (windowStarts 12000).map (fun s => chunkPath "audio.wav" (s / MAX_CHUNK_MS)) ∧
    (analyze_audio_run none 12000 failOracle "audio.wav" ["keep.txt"]).chunk_files ≠ [] ∧
    (∀ f ∈ (analyze_audio_run none 12000 failOracle "audio.wav" ["keep.txt"]).chunk_files,
      f ∉ (analyze_audio_run none 12000 failOracle "audio.wav" ["keep.txt"]).fs)) :=
  ⟨by norm_num,
    C9_resource_release 12000 failOracle "audio.wav" ["keep.txt"] (by norm_num)⟩

end VoiceSense
